import Mathlib

/-!
Verification development for the Relvy take-home log-analysis application.

The repository ships a React frontend (`App.jsx`, `FileUpload.jsx`,
`ChatMessage.jsx`, `ChatInput.jsx`) together with a specification of the
backend log-reduction pipeline (normalizer, signal detector, window builder,
template deduplicator, relevance scorer, importance ranker, summarizer).
The backend source itself is not part of the files under review, so every
backend definition below is modelled from the specification text and is
marked as such in its doc comment.  The frontend definitions are direct
shallow embeddings of the JavaScript source.

Strings are manipulated through structurally recursive helpers over
`List Char` so that every definition is executable and kernel-reducible.
-/

namespace LogPipeline

/-- `prefixSeq pat text` is true when `pat` is an initial segment of `text`
(element comparison via `BEq`). -/
def prefixSeq [BEq α] : List α → List α → Bool
  | [], _ => true
  | _ :: _, [] => false
  | p :: ps, c :: cs => p == c && prefixSeq ps cs

/-- `infixSeq text pat` is true when `pat` occurs contiguously inside `text`. -/
def infixSeq [BEq α] : List α → List α → Bool
  | [], pat => prefixSeq pat ([] : List α)
  | c :: cs, pat => prefixSeq pat (c :: cs) || infixSeq cs pat

/-- Substring test on strings, via char-list search. -/
def containsStr (s pat : String) : Bool := infixSeq s.data pat.data

/-- ASCII lower-casing of a character. -/
def lowerChar (c : Char) : Char :=
  if 'A' ≤ c && c ≤ 'Z' then Char.ofNat (c.toNat + 32) else c

/-- ASCII lower-casing of a string. -/
def lowerStr (s : String) : String := String.mk (s.data.map lowerChar)

/-- Split a char list at every occurrence of the separator character. -/
def splitOnChar (sep : Char) : List Char → List (List Char)
  | [] => [[]]
  | c :: cs =>
    if c == sep then [] :: splitOnChar sep cs
    else
      match splitOnChar sep cs with
      | [] => [[c]]
      | t :: ts => (c :: t) :: ts

/-- Split a char list on spaces (whitespace-delimited tokens). -/
def splitSp : List Char → List (List Char) := splitOnChar ' '

/-- Join token char-lists back with single spaces. -/
def joinSp : List (List Char) → List Char
  | [] => []
  | [t] => t
  | t :: ts => t ++ ' ' :: joinSp ts

/-- Interpret a list of decimal digit characters as a natural number. -/
def digitsToNat (cs : List Char) : Nat :=
  cs.foldl (fun n c => n * 10 + (c.toNat - 48)) 0

/-- `endsWithStr s post` mirrors JavaScript `s.endsWith(post)`. -/
def endsWithStr (s post : String) : Bool :=
  prefixSeq post.data.reverse s.data.reverse

/-! ## Normalizer (spec §4.1) -/

/-- Canonical severity enumeration from the spec data model. -/
inductive Severity where
  | DEBUG
  | INFO
  | WARN
  | ERROR
  | FATAL
  | UNKNOWN
deriving DecidableEq, Repr, Inhabited

/-- Modelled from the spec: a raw record is an opaque key/value mapping; the
fields below are the source keys the normalizer's fixed resolution table
consults (`serviceName`/`containerName`/`podName`, a timestamp string, an
optional trace id, an optional explicit severity field, the message body and
an optional status code).  A missing key is `none`. -/
structure RawRecord where
  serviceName : Option String := none
  containerName : Option String := none
  podName : Option String := none
  timestamp : Option String := none
  traceId : Option String := none
  severityField : Option String := none
  body : Option String := none
  statusCode : Option Int := none
deriving DecidableEq, Repr, Inhabited

/-- Canonical log record (spec §3): timestamp is `none` for the
unparseable-timestamp sentinel, which sorts last. -/
structure LogRecord where
  timestamp : Option Nat := none
  service : String := "unknown"
  traceId : Option String := none
  severity : Severity := .UNKNOWN
  message : String := ""
  statusCode : Option Int := none
deriving DecidableEq, Repr, Inhabited

/-- Modelled from the spec (§4.1): timestamp parsing accepts epoch-seconds and
epoch-nanoseconds (digit-only strings; 17 or more digits are treated as
nanoseconds and scaled down to seconds); anything else — the ISO-8601 variants
are abstracted into this failure case — falls to the "unknown time" sentinel
`none`.  Total: never fails. -/
def parseTimestamp (s : String) : Option Nat :=
  let cs := s.data
  if cs ≠ [] && cs.all Char.isDigit then
    let n := digitsToNat cs
    if cs.length ≥ 17 then some (n / 1000000000) else some n
  else none

/-- Modelled from the spec (§4.2): an explicit severity field is mapped
case-insensitively onto the enumeration when recognised. -/
def severityOfField (s : String) : Option Severity :=
  let t := lowerStr s
  if t = "debug" then some .DEBUG
  else if t = "info" then some .INFO
  else if t = "warn" || t = "warning" then some .WARN
  else if t = "error" then some .ERROR
  else if t = "fatal" || t = "critical" then some .FATAL
  else none

/-- Modelled from the spec (§4.2): ordered list of severity indicators matched
case-insensitively against the message body; first match wins. -/
def severityIndicators : List (String × Severity) :=
  [("fatal", .FATAL), ("panic", .FATAL), ("exception", .ERROR),
   ("error", .ERROR), ("fail", .ERROR), (" 500", .ERROR), (" 503", .ERROR),
   ("warn", .WARN), (" 404", .WARN), (" 400", .WARN)]

/-- Modelled from the spec (§4.2): severity extracted from the message body;
default `UNKNOWN`. -/
def detectSeverity (msg : String) : Severity :=
  let low := lowerStr msg
  match severityIndicators.find? (fun pr => containsStr low pr.1) with
  | some pr => pr.2
  | none => .UNKNOWN

/-- Modelled from the spec (§4.1): best-effort normalization of one raw
record.  Field resolution order for the service name is `serviceName`, then
`containerName`, then `podName`, finally `"unknown"`; severity prefers an
explicit recognised field and otherwise pattern-matches the message; all
fallbacks are defaults, so the function is total and a fully malformed record
becomes a degraded record rather than being dropped. -/
def normalizeOne (r : RawRecord) : LogRecord :=
  let msg := r.body.getD ""
  { timestamp := r.timestamp.bind parseTimestamp
    service := (r.serviceName <|> r.containerName <|> r.podName).getD "unknown"
    traceId := r.traceId
    severity := (r.severityField.bind severityOfField).getD (detectSeverity msg)
    message := msg
    statusCode := r.statusCode }

/-- Modelled from the spec (§4.1): `normalize` maps `normalizeOne` over the
batch; no record is ever dropped. -/
def normalize (rs : List RawRecord) : List LogRecord := rs.map normalizeOne

/-! ## Signal detector (spec §4.2) -/

/-- Modelled from the spec (§6): the configurable hot-keyword list (a policy
default, per the spec's open question on exact values). -/
def criticalKeywords : List String :=
  ["crash", "panic", "fatal", "exception", "timeout", "refused", "oom"]

/-- Modelled from the spec (§4.2): a record is hot iff its severity is in
WARN/ERROR/FATAL, or a critical keyword matches the message, or a parsed
status code is at least 400. -/
def isHot (r : LogRecord) : Bool :=
  r.severity == .WARN || r.severity == .ERROR || r.severity == .FATAL
    || criticalKeywords.any (fun k => containsStr (lowerStr r.message) k)
    || (match r.statusCode with
        | some c => decide (400 ≤ c)
        | none => false)

/-! ## Window builder (spec §4.3) -/

/-- Correlation key of a window: a trace id, a `(service, time-bucket)` pair,
or the per-service unknown-time bucket for sentinel timestamps. -/
inductive WKey where
  | trace (id : String)
  | bucket (service : String) (idx : Nat)
  | unknownTime (service : String)
deriving DecidableEq, Repr

/-- Modelled from the spec (§4.3): the grouping key of a record — its
non-null trace id if present, otherwise `(service, floor(timestamp /
bucketSeconds))`, with sentinel timestamps going to a per-service
unknown-time key. -/
def recordKey (bucketSeconds : Nat) (r : LogRecord) : WKey :=
  match r.traceId with
  | some t => .trace t
  | none =>
    match r.timestamp with
    | some ts => .bucket r.service (ts / bucketSeconds)
    | none => .unknownTime r.service

/-- String rendering of a correlation key, used for the deterministic
lexicographic tie-break when emitting windows. -/
def keyString : WKey → String
  | .trace t => "trace:" ++ t
  | .bucket s i => "time:" ++ s ++ ":" ++ toString i
  | .unknownTime s => "unknown-time:" ++ s

/-- A window of correlated records (spec §3). -/
structure Window where
  key : WKey
  startTime : Option Nat
  endTime : Option Nat
  records : List LogRecord
deriving DecidableEq, Repr

/-- Ordering on optional timestamps with the unknown-time sentinel `none`
sorted last. -/
def tsLE : Option Nat → Option Nat → Bool
  | some a, some b => decide (a ≤ b)
  | some _, none => true
  | none, some _ => false
  | none, none => true

/-- Modelled from the spec (§4.3): windows are emitted sorted by `startTime`
ascending, ties broken by correlation-key string lexicographically. -/
def windowLE (w₁ w₂ : Window) : Bool :=
  if w₁.startTime = w₂.startTime then decide (keyString w₁.key ≤ keyString w₂.key)
  else tsLE w₁.startTime w₂.startTime

/-- Build one window from a key and its member records; the window spans the
min/max parsed timestamp of its members. -/
def mkWindow (k : WKey) (rs : List LogRecord) : Window :=
  { key := k
    startTime := (rs.filterMap LogRecord.timestamp).min?
    endTime := (rs.filterMap LogRecord.timestamp).max?
    records := rs }

/-- Modelled from the spec (§4.3): partition the records by grouping key (in
first-occurrence order of the keys), then emit the windows sorted by start
time with the lexicographic tie-break. -/
def buildWindows (records : List LogRecord) (bucketSeconds : Nat) : List Window :=
  let ks := (records.map (recordKey bucketSeconds)).dedup
  let ws := ks.map fun k =>
    mkWindow k (records.filter fun r => recordKey bucketSeconds r == k)
  ws.mergeSort windowLE

/-! ## Template deduplicator (spec §4.4) -/

/-- Is `c` a hexadecimal digit? -/
def isHexDigitChar (c : Char) : Bool :=
  c.isDigit || ('a' ≤ c && c ≤ 'f') || ('A' ≤ c && c ≤ 'F')

/-- Does the token look like a UUID (36 chars of hex and exactly four
hyphens)? -/
def isUuidLike (t : List Char) : Bool :=
  t.length == 36 && t.all (fun c => isHexDigitChar c || c == '-')
    && t.count '-' == 4

/-- Does the token look like a long hex string (8+ hex chars containing at
least one digit)? -/
def isHexLike (t : List Char) : Bool :=
  decide (8 ≤ t.length) && t.all isHexDigitChar && t.any Char.isDigit

/-- Does the token look like an ISO timestamp (digits with date/time
punctuation)? -/
def isIsoLike (t : List Char) : Bool :=
  decide (10 ≤ t.length) && t.any Char.isDigit && t.any (fun c => c == '-')
    && t.all (fun c =>
        c.isDigit || c == '-' || c == ':' || c == 'T' || c == '.'
          || c == 'Z' || c == '+')

/-- Modelled from the spec (§4.4): the fixed ordered masking rules — numbers,
UUIDs, hex strings, ISO timestamps — applied to one whitespace token. -/
def maskToken (t : List Char) : List Char :=
  if !t.isEmpty && t.all Char.isDigit then "<NUM>".data
  else if isUuidLike t then "<UUID>".data
  else if isHexLike t then "<HEX>".data
  else if isIsoLike t then "<TS>".data
  else t

/-- Modelled from the spec (§4.4): message normalization masks
variable-looking tokens before grouping. -/
def maskMessage (m : String) : String :=
  String.mk (joinSp ((splitSp m.data).map maskToken))

/-- A deduplicated message template (spec §3). -/
structure Template where
  pattern : String
  count : Nat
  exampleRecord : LogRecord
deriving DecidableEq, Repr

/-- Grouping key of a record for deduplication. -/
def patternKey (r : LogRecord) : String := maskMessage r.message

/-- Sort templates by count descending; `mergeSort` is stable, so ties keep
their first-occurrence order. -/
def templateLE (t₁ t₂ : Template) : Bool := decide (t₂.count ≤ t₁.count)

/-- Modelled from the spec (§4.4): group a window's records by masked
pattern (keys in first-occurrence order, so stable sorting realises the
first-occurrence tie-break); the first record observed for a pattern becomes
the example; output is sorted by count descending. -/
def dedupe (w : Window) : List Template :=
  let ks := (w.records.map patternKey).dedup
  let ts := ks.map fun p =>
    let grp := w.records.filter fun r => patternKey r == p
    { pattern := p, count := grp.length, exampleRecord := grp.headD default }
  ts.mergeSort templateLE

/-! ## Relevance scorer (spec §4.5)

Scores are rationals (the spec's floats modelled exactly). The weights are
the configurable policy values of spec §6/§9, fixed here at their defaults
with service matches dominating phrase matches dominating keyword hits. -/

/-- Modelled from the spec (§6): default stopword list. -/
def stopwords : List String :=
  ["the", "a", "an", "is", "are", "was", "be", "to", "of", "and", "or",
   "in", "on", "at", "it", "my", "our", "what", "why", "how", "check",
   "show", "me", "logs"]

/-- A parsed user query (spec §4.5): explicit service-name mentions, quoted
phrases (as token sequences) and free keyword terms. -/
structure ParsedQuery where
  services : List String
  phrases : List (List String)
  keywords : List String
deriving DecidableEq, Repr

/-- Modelled from the spec (§4.5): lower-case the query, split on spaces,
drop stopwords; tokens containing "service" are treated as explicit service
mentions; segments between double quotes become phrases; the remaining
non-stop tokens are free keywords. -/
def parseQuery (q : String) : ParsedQuery :=
  let low := lowerStr q
  let toks := ((splitSp low.data).map String.mk).filter
    (fun t => t ≠ "" && !stopwords.contains t)
  let quoted := ((splitOnChar '"' low.data).enum.filter
    (fun p => p.1 % 2 == 1)).map
    (fun p => ((splitSp p.2).map String.mk).filter (fun t => t ≠ ""))
  { services := toks.filter (fun t => containsStr t "service")
    phrases := quoted
    keywords := toks }

/-- Weight of an exact service-name match (highest). -/
def wService : ℚ := 10

/-- Weight of a quoted-phrase containment (high). -/
def wPhrase : ℚ := 5

/-- Weight per individual keyword hit (low). -/
def wKeyword : ℚ := 1

/-- Cap on counted keyword hits per record (diminishing returns). -/
def keywordCap : Nat := 3

/-- The lower-cased whitespace tokens of a record's message. -/
def msgTokens (r : LogRecord) : List String :=
  (splitSp (lowerStr r.message).data).map String.mk

/-- Number of query keywords occurring in the record's message. -/
def keywordHits (q : ParsedQuery) (r : LogRecord) : Nat :=
  (q.keywords.filter (fun k => containsStr (lowerStr r.message) k)).length

/-- Number of query phrases contained (as contiguous token runs) in the
record's message. -/
def phraseHits (q : ParsedQuery) (r : LogRecord) : Nat :=
  (q.phrases.filter (fun ph => infixSeq (msgTokens r) ph)).length

/-- Modelled from the spec (§4.5): weighted contribution of one record —
exact service-name match, phrase containments, capped keyword hits. -/
def recordContribution (q : ParsedQuery) (r : LogRecord) : ℚ :=
  (if r.service ∈ q.services then wService else 0)
    + wPhrase * (phraseHits q r : ℚ)
    + wKeyword * (min (keywordHits q r) keywordCap : ℚ)

/-- Modelled from the spec (§4.5): window relevance is the sum of record
contributions normalized by the window record count (0 for an empty
window). -/
def scoreRelevance (w : Window) (q : ParsedQuery) : ℚ :=
  if w.records.isEmpty then 0
  else ((w.records.map (recordContribution q)).sum) / (w.records.length : ℚ)

/-- Extend a window with one more record (used to state the scorer's
monotonicity claim). -/
def addRecord (w : Window) (r : LogRecord) : Window :=
  { w with records := r :: w.records }

/-! ## Importance ranker (spec §4.6) -/

/-- Weight of relevance in the importance score (dominates). -/
def alphaW : ℚ := 4

/-- Weight of the hot-record fraction. -/
def betaW : ℚ := 2

/-- Weight of the volume term. -/
def gammaW : ℚ := 1

/-- Modelled from the spec: the `log(1 + totalRecordCount)` volume term,
realised by the integer base-2 logarithm so the score stays an executable
rational (monotone surrogate for the spec's real logarithm). -/
def logTerm (n : Nat) : ℚ := (Nat.log2 (1 + n) : ℚ)

/-- Fraction of hot records in a window (0 for an empty window). -/
def hotFraction (w : Window) : ℚ :=
  if w.records.isEmpty then 0
  else ((w.records.filter isHot).length : ℚ) / (w.records.length : ℚ)

/-- A window together with its relevance and importance scores (spec §3). -/
structure ScoredWindow where
  window : Window
  relevanceScore : ℚ
  importanceScore : ℚ
deriving DecidableEq, Repr

/-- Modelled from the spec (§4.6): `importanceScore = α·relevanceScore +
β·hotRecordFraction + γ·log(1 + totalRecordCount)`. -/
def scoreWindow (q : ParsedQuery) (w : Window) : ScoredWindow :=
  let rel := scoreRelevance w q
  { window := w
    relevanceScore := rel
    importanceScore :=
      alphaW * rel + betaW * hotFraction w + gammaW * logTerm w.records.length }

/-- Does the window contain a hot record? -/
def hasHotRecord (w : Window) : Bool := w.records.any isHot

/-- Modelled from the spec (§4.6): the strict filter — a window survives iff
its relevance score is nonzero or it has a hot record. -/
def survives (sw : ScoredWindow) : Bool :=
  decide (sw.relevanceScore ≠ 0) || hasHotRecord sw.window

/-- The windows surviving the strict filter, in input order. -/
def survivors (sws : List ScoredWindow) : List ScoredWindow :=
  sws.filter survives

/-- Modelled from the spec (§4.6): sort by importance descending, ties by
start time ascending. -/
def rankLE (s₁ s₂ : ScoredWindow) : Bool :=
  if s₁.importanceScore = s₂.importanceScore then
    tsLE s₁.window.startTime s₂.window.startTime
  else decide (s₂.importanceScore < s₁.importanceScore)

/-- The ranking order as a proposition: strictly greater importance, or equal
importance with start time not later. -/
def rankRel (s₁ s₂ : ScoredWindow) : Prop :=
  s₂.importanceScore < s₁.importanceScore
    ∨ (s₁.importanceScore = s₂.importanceScore
        ∧ tsLE s₁.window.startTime s₂.window.startTime = true)

/-- Modelled from the spec (§4.6): keep the surviving windows, sort them by
importance (descending, ties by start time ascending), retain at most
`topK`. -/
def rank (sws : List ScoredWindow) (topK : Nat) : List ScoredWindow :=
  ((survivors sws).mergeSort rankLE).take topK

/-! ## Summarizer and full pipeline (spec §4.7, §6) -/

/-- Modelled from the spec (§6): the configuration surface, with defaults. -/
structure Config where
  bucketSeconds : Nat := 30
  topK : Nat := 5
  maxTemplatesPerWindow : Nat := 5
  maxSampleRecordsPerWindow : Nat := 5
deriving DecidableEq, Repr, Inhabited

/-- Numeric priority of a severity (higher is more important). -/
def severityRank : Severity → Nat
  | .FATAL => 5
  | .ERROR => 4
  | .WARN => 3
  | .INFO => 2
  | .DEBUG => 1
  | .UNKNOWN => 0

/-- Sample records are ordered highest severity first. -/
def sampleLE (r₁ r₂ : LogRecord) : Bool :=
  decide (severityRank r₂.severity ≤ severityRank r₁.severity)

/-- Occurrence counts of the values of a list, keyed by first occurrence. -/
def breakdown [DecidableEq α] (xs : List α) : List (α × Nat) :=
  xs.dedup.map fun k => (k, xs.count k)

/-- Modelled from the spec (§4.7): the bounded per-window summary object. -/
structure Summary where
  correlationKey : String
  timeRange : Option Nat × Option Nat
  serviceBreakdown : List (String × Nat)
  severityBreakdown : List (Severity × Nat)
  topTemplates : List Template
  rawSampleRecords : List LogRecord
deriving DecidableEq, Repr

/-- Modelled from the spec (§4.7): summarize one surviving window; every
sequence field is truncated to its configured bound. -/
def summarize (cfg : Config) (sw : ScoredWindow) : Summary :=
  let w := sw.window
  { correlationKey := keyString w.key
    timeRange := (w.startTime, w.endTime)
    serviceBreakdown := breakdown (w.records.map LogRecord.service)
    severityBreakdown := breakdown (w.records.map LogRecord.severity)
    topTemplates := (dedupe w).take cfg.maxTemplatesPerWindow
    rawSampleRecords :=
      (w.records.mergeSort sampleLE).take cfg.maxSampleRecordsPerWindow }

/-- Modelled from the spec (§6): what the pipeline hands to the output
collaborator — the ordered summaries and the basic counts. -/
structure PipelineOutput where
  summaries : List Summary
  totalRecords : Nat
  survivingRecords : Nat
  eliminatedRecords : Nat
  costReductionPercentage : ℚ
deriving DecidableEq, Repr

/-- Modelled from the spec (§2, §6): the full reduction pipeline —
normalize, window, score, rank, summarize — plus the basic counts, with
`costReductionPercentage = 1 - survivingRecords/totalRecords`. -/
def runPipeline (cfg : Config) (raws : List RawRecord) (query : String) :
    PipelineOutput :=
  let recs := normalize raws
  let q := parseQuery query
  let ws := buildWindows recs cfg.bucketSeconds
  let scored := ws.map (scoreWindow q)
  let ranked := rank scored cfg.topK
  let total := recs.length
  let surviving := (ranked.map fun sw => sw.window.records.length).sum
  { summaries := ranked.map (summarize cfg)
    totalRecords := total
    survivingRecords := surviving
    eliminatedRecords := total - surviving
    costReductionPercentage := 1 - (surviving : ℚ) / (total : ℚ) }

/-- Response of the request layer: the pipeline output plus conversation
bookkeeping (spec §6: the conversation marker belongs to the collaborator,
not the pipeline). -/
structure RequestResponse where
  output : PipelineOutput
  conversationId : String
deriving DecidableEq, Repr

/-- Modelled from the spec (§6): one request — the pipeline runs statelessly
on `(records, query, config)`; the optional prior-conversation marker is only
echoed back (or replaced by a fresh one), never consulted by the pipeline. -/
def analyzeRequest (cfg : Config) (raws : List RawRecord) (query : String)
    (conversationId : Option String) : RequestResponse :=
  { output := runPipeline cfg raws query
    conversationId := conversationId.getD "new-conversation" }

end LogPipeline

namespace ChatUI

/-!
## Frontend: `formatContent` (`ChatMessage.jsx`)

Shallow embedding of the regex-replace chain.  Each JavaScript replace rule
becomes a text transformer over `List Char`; the global scanners recurse on a
fuel argument (always called with fuel = length of the text + 1, which is
sufficient since every step consumes at least one character), keeping all
definitions structurally recursive and kernel-reducible.
-/

open LogPipeline (prefixSeq)

/-- The backtick character (delimiter of the inline-code rule). -/
def btick : Char := Char.ofNat 96

/-- JavaScript `\s` on the ASCII range (the inputs here are LLM/markdown
text): space, tab, newline, carriage return, vertical tab, form feed. -/
def isJsSpace (c : Char) : Bool :=
  c == ' ' || c == '\t' || c == '\n' || c == '\r'
    || c == Char.ofNat 11 || c == Char.ofNat 12

/-- Find the earliest closing delimiter with no intervening newline (the
lazy `(.*?)` of `/\*\*(.*?)\*\*/` and its siblings never crosses a newline
because `.` does not match one); returns the captured content and the text
after the closing delimiter. -/
def findCloseNoNL (delim : List Char) : List Char → Option (List Char × List Char)
  | [] => none
  | c :: cs =>
    if prefixSeq delim (c :: cs) then some ([], (c :: cs).drop delim.length)
    else if c == '\n' then none
    else
      match findCloseNoNL delim cs with
      | some (content, rest) => some (c :: content, rest)
      | none => none

/-- Global replace of `delim (.*?) delim` (lazy, newline-free content) by
`openTag content closeTag`; on failure the scan advances one character, as a
JavaScript global regex does. -/
def replacePairs (delim openTag closeTag : List Char) :
    Nat → List Char → List Char
  | 0, l => l
  | _ + 1, [] => []
  | fuel + 1, c :: cs =>
    if prefixSeq delim (c :: cs) then
      match findCloseNoNL delim ((c :: cs).drop delim.length) with
      | some (content, rest) =>
        openTag ++ content ++ closeTag ++ replacePairs delim openTag closeTag fuel rest
      | none => c :: replacePairs delim openTag closeTag fuel cs
    else c :: replacePairs delim openTag closeTag fuel cs

/-- Split at the first newline: the run of non-newline characters, and the
remainder beginning with the newline (if any). -/
def takeToNL : List Char → List Char × List Char
  | [] => ([], [])
  | c :: cs =>
    if c == '\n' then ([], c :: cs)
    else
      let p := takeToNL cs
      (c :: p.1, p.2)

/-- Global replace of `marker (.*?) (\n|$)` by `openTag content closeTag`
followed by the captured terminator (the header rules re-emit `$2`). -/
def replaceHeader (marker openTag closeTag : List Char) :
    Nat → List Char → List Char
  | 0, l => l
  | _ + 1, [] => []
  | fuel + 1, c :: cs =>
    if prefixSeq marker (c :: cs) then
      let p := takeToNL ((c :: cs).drop marker.length)
      match p.2 with
      | [] => openTag ++ p.1 ++ closeTag
      | nl :: rest =>
        openTag ++ p.1 ++ closeTag ++ nl :: replaceHeader marker openTag closeTag fuel rest
    else c :: replaceHeader marker openTag closeTag fuel cs

/-- Global replace of every occurrence of a fixed pattern. -/
def replaceAllSeq (pat repl : List Char) : Nat → List Char → List Char
  | 0, l => l
  | _ + 1, [] => []
  | fuel + 1, c :: cs =>
    if prefixSeq pat (c :: cs) then
      repl ++ replaceAllSeq pat repl fuel ((c :: cs).drop pat.length)
    else c :: replaceAllSeq pat repl fuel cs

/-- Global replace of `\n- (.*?)(\n|$)` by `<li>$1</li>`: unlike the header
rules, the replacement drops the captured terminator, so the newline closing
a bullet is consumed (which is why only alternating consecutive bullets
match, exactly as in the source). -/
def replaceBullets : Nat → List Char → List Char
  | 0, l => l
  | _ + 1, [] => []
  | fuel + 1, c :: cs =>
    if prefixSeq ['\n', '-', ' '] (c :: cs) then
      let p := takeToNL ((c :: cs).drop 3)
      match p.2 with
      | [] => "<li>".data ++ p.1 ++ "</li>".data
      | _ :: rest => "<li>".data ++ p.1 ++ "</li>".data ++ replaceBullets fuel rest
    else c :: replaceBullets fuel cs

/-- Index of the first occurrence of `pat` (as a contiguous block). -/
def firstIdxOfSeq (pat : List Char) : List Char → Option Nat
  | [] => if prefixSeq pat ([] : List Char) then some 0 else none
  | c :: cs =>
    if prefixSeq pat (c :: cs) then some 0
    else (firstIdxOfSeq pat cs).map (· + 1)

/-- Index of the last occurrence of `pat` (as a contiguous block). -/
def lastIdxOfSeq (pat : List Char) : List Char → Option Nat
  | [] => if prefixSeq pat ([] : List Char) then some 0 else none
  | c :: cs =>
    match lastIdxOfSeq pat cs with
    | some j => some (j + 1)
    | none => if prefixSeq pat (c :: cs) then some 0 else none

/-- The single (non-global) replace of `/(<li>.*<\/li>)/s` by `<ul>$1</ul>`:
the leftmost match starts at the first `<li>` and the greedy dot-all `.*`
extends it to the end of the last `</li>`; if no `</li>` completes a match
the text is unchanged. -/
def wrapList (l : List Char) : List Char :=
  match firstIdxOfSeq "<li>".data l, lastIdxOfSeq "</li>".data l with
  | some i, some j =>
    if i + 4 ≤ j then
      l.take i ++ "<ul>".data ++ (l.drop i).take (j + 5 - i)
        ++ "</ul>".data ++ l.drop (j + 5)
    else l
  | _, _ => l

/-- `/^\s*/ → '<p>'`: the leading whitespace run (possibly empty) is replaced
by an opening paragraph tag. -/
def addLeadP (l : List Char) : List Char := "<p>".data ++ l.dropWhile isJsSpace

/-- `/\s*$/ → '</p>'`: the trailing whitespace run (possibly empty) is
replaced by a closing paragraph tag. -/
def addTrailP (l : List Char) : List Char :=
  (l.reverse.dropWhile isJsSpace).reverse ++ "</p>".data

/-- Rule 1: `/\*\*(.*?)\*\*/g → '<strong>$1</strong>'`. -/
def boldRule (l : List Char) : List Char :=
  replacePairs ['*', '*'] "<strong>".data "</strong>".data (l.length + 1) l

/-- Rule 2: the inline-code rule (backtick-delimited) → `<code>$1</code>`. -/
def codeRule (l : List Char) : List Char :=
  replacePairs [btick] "<code>".data "</code>".data (l.length + 1) l

/-- Rule 3: `/### (.*?)(\n|$)/g → '<h3>$1</h3>$2'`. -/
def h3Rule (l : List Char) : List Char :=
  replaceHeader "### ".data "<h3>".data "</h3>".data (l.length + 1) l

/-- Rule 4: `/## (.*?)(\n|$)/g → '<h2>$1</h2>$2'`. -/
def h2Rule (l : List Char) : List Char :=
  replaceHeader "## ".data "<h2>".data "</h2>".data (l.length + 1) l

/-- Rule 5: `/# (.*?)(\n|$)/g → '<h1>$1</h1>$2'`. -/
def h1Rule (l : List Char) : List Char :=
  replaceHeader "# ".data "<h1>".data "</h1>".data (l.length + 1) l

/-- Rule 6: `/\n\n/g → '</p><p>'`. -/
def paraRule (l : List Char) : List Char :=
  replaceAllSeq ['\n', '\n'] "</p><p>".data (l.length + 1) l

/-- Rule 7: `/\n- (.*?)(\n|$)/g → '<li>$1</li>'`. -/
def bulletRule (l : List Char) : List Char := replaceBullets (l.length + 1) l

/-- The ten replace rules in the order the source chains them. -/
def mdRules : List (List Char → List Char) :=
  [boldRule, codeRule, h3Rule, h2Rule, h1Rule, paraRule, bulletRule,
   wrapList, addLeadP, addTrailP]

/-- Shallow embedding of `formatContent` from `ChatMessage.jsx`: the chained
`.replace(...)` calls, innermost (bold) first. -/
def formatContent (s : String) : String :=
  String.mk (addTrailP (addLeadP (wrapList (bulletRule (paraRule (h1Rule
    (h2Rule (h3Rule (codeRule (boldRule s.data))))))))))

/-!
## Frontend: `FileUpload.jsx`
-/

open LogPipeline (endsWithStr)

/-- Observable outcome of one file-choice event in `FileUpload`: whether
`onFileUpload` was invoked (and with which file), the resulting
`selectedFile` state, and whether `alert` fired. -/
structure UploadOutcome where
  uploadCalled : Option String
  selectedFile : Option String
  alerted : Bool
deriving DecidableEq, Repr

/-- `handleDrop` from `FileUpload.jsx`, given a dropped file's name and the
prior `selectedFile` state: a `.ndjson`/`.json` name is selected and passed
to `onFileUpload`; any other name only raises the alert. -/
def handleDrop (prior : Option String) (name : String) : UploadOutcome :=
  if endsWithStr name ".ndjson" || endsWithStr name ".json" then
    { uploadCalled := some name, selectedFile := some name, alerted := false }
  else { uploadCalled := none, selectedFile := prior, alerted := true }

/-- `handleFileSelect` from `FileUpload.jsx` (same guard on the file chosen
through the dialog). -/
def handleFileSelect (prior : Option String) (name : String) : UploadOutcome :=
  if endsWithStr name ".ndjson" || endsWithStr name ".json" then
    { uploadCalled := some name, selectedFile := some name, alerted := false }
  else { uploadCalled := none, selectedFile := prior, alerted := true }

/-!
## Frontend: `App.jsx` `handleSendMessage`
-/

/-- Message author, as in the `type` field of `App.jsx` messages. -/
inductive MsgType where
  | user
  | assistant
deriving DecidableEq, Repr

/-- A chat message; `isLoading` is false unless explicitly set (absent in
JavaScript is falsy). -/
structure ChatMessage where
  mtype : MsgType
  content : String
  isLoading : Bool := false
deriving DecidableEq, Repr

/-- The component state touched by `handleSendMessage`. -/
structure AppState where
  messages : List ChatMessage
  uploadedFile : Option String
  isAnalyzing : Bool
  conversationId : Option String
deriving DecidableEq, Repr

/-- The fields of a successful `/analyze-logs` response consumed by
`handleSendMessage`. -/
structure AnalyzeResponseData where
  response : String
  processingSummary : String
  costReductionPct : String
  llmTokensUsed : String
  llmCost : String
  conversationId : Option String
deriving DecidableEq, Repr

/-- The three ways the awaited fetch can resolve for `handleSendMessage`:
a parsed ok-response, a non-ok HTTP status (thrown and caught), or any other
thrown error. -/
inductive FetchOutcome where
  | ok (data : AnalyzeResponseData)
  | httpError (status : Nat)
  | networkError (message : String)
deriving DecidableEq, Repr

/-- The assistant message content built in the success branch. -/
def respContent (d : AnalyzeResponseData) : String :=
  d.response ++ "\n\n---\n*Analysis: " ++ d.processingSummary
    ++ " | Cost reduction: " ++ d.costReductionPct ++ "% | LLM tokens: "
    ++ d.llmTokensUsed ++ " | Cost: $" ++ d.llmCost ++ "*"

/-- The thrown message for a non-ok response status. -/
def httpErrorText (status : Nat) : String :=
  "HTTP error! status: " ++ toString status

/-- The assistant message content built in the catch branch. -/
def errorContent (emsg : String) : String :=
  "Sorry, there was an error analyzing your logs: " ++ emsg
    ++ ". Please try again."

/-- Shallow embedding of `handleSendMessage` from `App.jsx` as a state
transformer: without an uploaded file it only appends the reminder message
(no request); otherwise it appends the user message and the loading message,
sets `isAnalyzing`, and then — according to how the request resolved —
removes every loading message and appends exactly one assistant message
(analysis or error), finally clearing `isAnalyzing`. -/
def handleSendMessage (st : AppState) (messageText : String)
    (outcome : FetchOutcome) : AppState :=
  match st.uploadedFile with
  | none =>
    { st with
      messages := st.messages
        ++ [{ mtype := .assistant
              content := "Please upload a log file first before asking questions." }] }
  | some _ =>
    let afterUser := st.messages ++ [{ mtype := .user, content := messageText }]
    let afterLoading := afterUser
      ++ [{ mtype := .assistant, content := "Analyzing your logs..."
            isLoading := true }]
    match outcome with
    | .ok d =>
      let cid :=
        match d.conversationId, st.conversationId with
        | some c, none => some c
        | _, _ => st.conversationId
      { messages := (afterLoading.filter fun m => !m.isLoading)
          ++ [{ mtype := .assistant, content := respContent d }]
        uploadedFile := st.uploadedFile
        isAnalyzing := false
        conversationId := cid }
    | .httpError status =>
      { messages := (afterLoading.filter fun m => !m.isLoading)
          ++ [{ mtype := .assistant
                content := errorContent (httpErrorText status) }]
        uploadedFile := st.uploadedFile
        isAnalyzing := false
        conversationId := st.conversationId }
    | .networkError emsg =>
      { messages := (afterLoading.filter fun m => !m.isLoading)
          ++ [{ mtype := .assistant, content := errorContent emsg }]
        uploadedFile := st.uploadedFile
        isAnalyzing := false
        conversationId := st.conversationId }

/-- Number of assistant messages in a transcript. -/
def assistantCount (ms : List ChatMessage) : Nat :=
  (ms.filter fun m => m.mtype == .assistant).length

end ChatUI

namespace LogPipeline

/-! ## Concrete instances used to exercise the theorems -/

/-- An empty trace window used as a concrete ranking input. -/
def sampleWindow : Window :=
  { key := .trace "t0", startTime := some 0, endTime := some 0, records := [] }

/-- A concrete surviving scored window. -/
def sampleScored : ScoredWindow :=
  { window := sampleWindow, relevanceScore := 1, importanceScore := 1 }

/-- A record from the query-mentioned service whose message matches nothing
else. -/
def cRecPlain : LogRecord :=
  { timestamp := some 0, service := "cart-service", severity := .INFO
    message := "ok" }

/-- A record from the query-mentioned service whose message also contains the
quoted phrase. -/
def cRecMatch : LogRecord :=
  { timestamp := some 0, service := "cart-service", severity := .INFO
    message := "cart-service is down" }

/-- A concrete parsed query mentioning `cart-service` and quoting `down`. -/
def cQuery : ParsedQuery :=
  { services := ["cart-service"], phrases := [["down"]], keywords := [] }

/-- A window holding only the phrase-matching record. -/
def cWindow : Window :=
  { key := .trace "t", startTime := some 0, endTime := some 0
    records := [cRecMatch] }

/-- A window holding only the plain record. -/
def cWindowPlain : Window :=
  { key := .trace "t", startTime := some 0, endTime := some 0
    records := [cRecPlain] }

end LogPipeline

namespace ChatUI

/-- A concrete chat state with an uploaded file and an empty transcript. -/
def chatState0 : AppState :=
  { messages := [], uploadedFile := some "logs.json", isAnalyzing := false
    conversationId := none }

end ChatUI

namespace LogPipeline

/-! ## Helper lemmas -/

/-- Grouping a list by the distinct values of a key function and
concatenating the groups permutes the original list. -/
theorem flatten_filter_perm {α κ : Type} [DecidableEq κ] (f : α → κ) :
    ∀ (ks : List κ) (l : List α), ks.Nodup → (∀ x ∈ l, f x ∈ ks) →
      ((ks.map fun k => l.filter fun x => f x == k).flatten).Perm l := by
  intro ks
  induction ks with
  | nil =>
    intro l _ hcov
    have hl : l = [] :=
      List.eq_nil_iff_forall_not_mem.mpr fun x hx => by simpa using hcov x hx
    subst hl
    simp
  | cons k ks ih =>
    intro l hnd hcov
    have hk : k ∉ ks := (List.nodup_cons.mp hnd).1
    have hnd' : ks.Nodup := (List.nodup_cons.mp hnd).2
    have htail : ks.map (fun k' => l.filter fun x => f x == k')
        = ks.map fun k' =>
            (l.filter fun x => !(f x == k)).filter fun x => f x == k' := by
      refine List.map_congr_left fun k' hk' => ?_
      rw [List.filter_filter]
      refine (List.filter_congr fun x _ => ?_).symm
      by_cases hx : f x = k'
      · have hne : k' ≠ k := fun hcontr => hk (hcontr ▸ hk')
        simp [hx, hne]
      · simp [hx]
    rw [List.map_cons, List.flatten_cons, htail]
    have hcov' : ∀ x ∈ l.filter fun x => !(f x == k), f x ∈ ks := by
      intro x hx
      obtain ⟨hxl, hxk⟩ := List.mem_filter.mp hx
      have := hcov x hxl
      simp only [List.mem_cons] at this
      rcases this with h | h
      · exact absurd (show (f x == k) = true by simp [h]) (by simpa using hxk)
      · exact h
    have htp := ih (l.filter fun x => !(f x == k)) hnd' hcov'
    exact (htp.append_left _).trans (List.filter_append_perm _ l)

/-- The window contents of `buildWindows` concatenate to a permutation of the
input records: nothing is dropped or duplicated. -/
theorem buildWindows_flatten_perm (records : List LogRecord) (b : Nat) :
    (((buildWindows records b).map Window.records).flatten).Perm records := by
  unfold buildWindows
  have hperm := (List.mergeSort_perm
    ((records.map (recordKey b)).dedup.map fun k =>
      mkWindow k (records.filter fun r => recordKey b r == k)) windowLE).map
        Window.records
  refine hperm.flatten.trans ?_
  rw [List.map_map]
  exact flatten_filter_perm (recordKey b) _ records (List.nodup_dedup _)
    (fun x hx => List.mem_dedup.mpr (List.mem_map_of_mem _ hx))

/-- The per-window record counts of `buildWindows` sum to the input count. -/
theorem buildWindows_length_sum (records : List LogRecord) (b : Nat) :
    ((buildWindows records b).map fun w => w.records.length).sum
      = records.length := by
  have h := (buildWindows_flatten_perm records b).length_eq
  rw [List.length_flatten, List.map_map] at h
  exact h

/-! ## Claim theorems: pipeline -/

/-- Claim C1: for every input sequence of raw records, `normalize` returns a
sequence of canonical records of the same length — including the empty batch
— and (being a total function built from per-field defaults) never fails: a
fully malformed raw record is normalized to the degraded default record,
never dropped. -/
theorem normalize_preserves_count :
    (∀ R : List RawRecord, (normalize R).length = R.length) ∧
    normalizeOne {} =
      { timestamp := none, service := "unknown", traceId := none
        severity := .UNKNOWN, message := "", statusCode := none } :=
  ⟨fun R => List.length_map R normalizeOne, rfl⟩

/-- Claim C2: the windows built from any list of normalized records form an
exhaustive and disjoint partition — the window contents concatenate to a
permutation of the input (so every record occurrence appears exactly once
across the windows), every record sits in the window of its own grouping key
(its trace id when non-null, otherwise its service/time bucket), and no two
windows share a grouping key. -/
theorem buildWindows_partition (records : List LogRecord) (b : Nat) :
    (((buildWindows records b).map Window.records).flatten).Perm records ∧
    ((buildWindows records b).all fun w =>
      w.records.all fun r => recordKey b r == w.key) = true ∧
    ((buildWindows records b).map Window.key).Nodup := by
  refine ⟨buildWindows_flatten_perm records b, ?_, ?_⟩
  · rw [List.all_eq_true]
    intro w hw
    rw [List.all_eq_true]
    intro r hr
    unfold buildWindows at hw
    rw [List.mem_mergeSort, List.mem_map] at hw
    obtain ⟨k, hkmem, rfl⟩ := hw
    have hr' : r ∈ records.filter fun r => recordKey b r == k := hr
    simpa [mkWindow] using (List.mem_filter.mp hr').2
  · unfold buildWindows
    have hperm := (List.mergeSort_perm
      ((records.map (recordKey b)).dedup.map fun k =>
        mkWindow k (records.filter fun r => recordKey b r == k)) windowLE).map
          Window.key
    rw [hperm.nodup_iff, List.map_map]
    simpa [mkWindow, Function.comp_def, List.map_id'] using
      List.nodup_dedup (records.map (recordKey b))

/-- Claim C3: for every window, the counts of the templates produced by
`dedupe` sum to the number of records in the window. -/
theorem dedupe_count_conservation (w : Window) :
    ((dedupe w).map Template.count).sum = w.records.length := by
  unfold dedupe
  rw [((List.mergeSort_perm _ templateLE).map Template.count).sum_eq,
    List.map_map]
  have hflat := (flatten_filter_perm patternKey
    ((w.records.map patternKey).dedup) w.records
    (List.nodup_dedup _)
    (fun x hx => List.mem_dedup.mpr (List.mem_map_of_mem _ hx))).length_eq
  rw [List.length_flatten, List.map_map] at hflat
  exact hflat

/-- `tsLE` is transitive. -/
theorem tsLE_trans {a b c : Option Nat} (h₁ : tsLE a b = true)
    (h₂ : tsLE b c = true) : tsLE a c = true := by
  cases a <;> cases b <;> cases c <;> simp [tsLE] at * ; omega

/-- `tsLE` is total. -/
theorem tsLE_total (a b : Option Nat) : (tsLE a b || tsLE b a) = true := by
  cases a <;> cases b <;> simp [tsLE] ; omega

/-- The ranking comparison is transitive. -/
theorem rankLE_trans (a b c : ScoredWindow) (h₁ : rankLE a b = true)
    (h₂ : rankLE b c = true) : rankLE a c = true := by
  unfold rankLE at *
  by_cases hab : a.importanceScore = b.importanceScore <;>
    by_cases hbc : b.importanceScore = c.importanceScore
  · simp only [hab, hbc, if_pos rfl, hab.trans hbc, if_pos] at *
    exact tsLE_trans h₁ h₂
  · have hac : a.importanceScore ≠ c.importanceScore := hab ▸ hbc
    simp only [if_pos hab, if_neg hbc, if_neg hac, decide_eq_true_eq] at *
    rw [hab]; exact h₂
  · have hac : a.importanceScore ≠ c.importanceScore := fun h => hab (h.trans hbc.symm)
    simp only [if_neg hab, if_pos hbc, if_neg hac, decide_eq_true_eq] at *
    rw [← hbc]; exact h₁
  · simp only [if_neg hab, if_neg hbc, decide_eq_true_eq] at h₁ h₂
    have hlt := h₂.trans h₁
    simp [if_neg (ne_of_gt hlt), hlt]

/-- The ranking comparison is total. -/
theorem rankLE_total (a b : ScoredWindow) : (rankLE a b || rankLE b a) = true := by
  unfold rankLE
  by_cases hab : a.importanceScore = b.importanceScore
  · simp only [if_pos hab, if_pos hab.symm]
    exact tsLE_total _ _
  · simp only [if_neg hab, if_neg (Ne.symm hab), Bool.or_eq_true,
      decide_eq_true_eq]
    exact (lt_or_gt_of_ne hab).symm.imp id id

/-- The boolean ranking comparison implies the propositional ranking order. -/
theorem rankLE_to_rankRel {a b : ScoredWindow} (h : rankLE a b = true) :
    rankRel a b := by
  unfold rankLE at h
  unfold rankRel
  by_cases hab : a.importanceScore = b.importanceScore
  · exact Or.inr ⟨hab, by simpa [if_pos hab] using h⟩
  · exact Or.inl (by simpa [if_neg hab] using h)

/-- Claim C4: `rank` keeps no window that has zero relevance and no hot
record; its output is sorted by importance descending with start-time
ascending tie-break; it returns at most `topK` windows; and when at most
`topK` windows survive the strict filter, the output is exactly the
survivors (as a permutation — nothing is padded in, nothing more is cut). -/
theorem rank_spec (sws : List ScoredWindow) (topK : Nat) :
    ((rank sws topK).all fun sw =>
      !(decide (sw.relevanceScore = 0) && !hasHotRecord sw.window)) = true ∧
    (rank sws topK).Pairwise rankRel ∧
    (rank sws topK).length ≤ topK ∧
    ((survivors sws).length ≤ topK →
      (rank sws topK).Perm (survivors sws)) := by
  refine ⟨?_, ?_, ?_, ?_⟩
  · rw [List.all_eq_true]
    intro sw hsw
    have hmem : sw ∈ (survivors sws).mergeSort rankLE :=
      (List.take_sublist _ _).subset hsw
    rw [List.mem_mergeSort] at hmem
    have hs : survives sw = true := (List.mem_filter.mp hmem).2
    rw [survives, Bool.or_eq_true, decide_eq_true_eq] at hs
    rcases hs with hs | hs
    · simp [hs]
    · simp [hs]
  · exact ((List.sorted_mergeSort rankLE_trans rankLE_total
      (survivors sws)).sublist (List.take_sublist _ _)).imp rankLE_to_rankRel
  · rw [rank, List.length_take]
    exact min_le_left _ _
  · intro hlen
    rw [rank, List.take_of_length_le (by rwa [List.length_mergeSort])]
    exact List.mergeSort_perm _ _

/-- Witness for C4 at a concrete input: a single surviving window with
`topK = 1` is returned exactly. -/
theorem rank_spec_witness :
    (rank [sampleScored] 1).Perm (survivors [sampleScored]) :=
  (rank_spec [sampleScored] 1).2.2.2 (by decide)

/-- Every per-record contribution is nonnegative. -/
theorem recordContribution_nonneg (q : ParsedQuery) (r : LogRecord) :
    0 ≤ recordContribution q r := by
  unfold recordContribution wService wPhrase wKeyword
  have h₁ : (0:ℚ) ≤ if r.service ∈ q.services then (10:ℚ) else 0 := by
    split <;> norm_num
  have h₂ : (0:ℚ) ≤ (5:ℚ) * (phraseHits q r : ℚ) := by positivity
  have h₃ : (0:ℚ) ≤ (1:ℚ) * (min (keywordHits q r) keywordCap : ℚ) := by
    positivity
  linarith

/-- A record from a query-mentioned service contributes at least the
service-match weight. -/
theorem recordContribution_ge_wService (q : ParsedQuery) (r : LogRecord)
    (h : r.service ∈ q.services) : wService ≤ recordContribution q r := by
  unfold recordContribution
  rw [if_pos h]
  have h₂ : (0:ℚ) ≤ wPhrase * (phraseHits q r : ℚ) := by
    unfold wPhrase; positivity
  have h₃ : (0:ℚ) ≤ wKeyword * (min (keywordHits q r) keywordCap : ℚ) := by
    unfold wKeyword; positivity
  linarith

/-- Claim C5 counterexample: the claim "adding an exact-service-name-matching
record never decreases the window's relevance score" is false on the
spec-modelled scorer.  The window `cWindow` holds one record of
`cart-service` that also contains the quoted phrase (score 15); adding
`cRecPlain` — whose service exactly matches a service mentioned in `cQuery`
— drops the count-normalized score to 25/2. -/
theorem scoreRelevance_not_monotone :
    cRecPlain.service ∈ cQuery.services ∧
    scoreRelevance (addRecord cWindow cRecPlain) cQuery
      < scoreRelevance cWindow cQuery := by
  have hm : cRecPlain.service ∈ cQuery.services := by decide
  have hm2 : cRecMatch.service ∈ cQuery.services := by decide
  have hp1 : phraseHits cQuery cRecMatch = 1 := rfl
  have hp0 : phraseHits cQuery cRecPlain = 0 := rfl
  have hk1 : keywordHits cQuery cRecMatch = 0 := rfl
  have hk0 : keywordHits cQuery cRecPlain = 0 := rfl
  have hW : cWindow.records = [cRecMatch] := rfl
  have hA : (addRecord cWindow cRecPlain).records = [cRecPlain, cRecMatch] := rfl
  refine ⟨hm, ?_⟩
  rw [scoreRelevance, scoreRelevance, hW, hA]
  norm_num [recordContribution, hm, hm2, hp1, hp0, hk1, hk0,
    wService, wPhrase, wKeyword, keywordCap]

/-- Claim C5 (amended): adding an exact-service-name-matching record never
decreases a window's relevance score provided the window's current score is
at most the service-match weight (the mean normalization makes the unrestricted
statement false: a window already scoring above the service weight can be
dragged down, as `scoreRelevance_not_monotone` shows). -/
theorem scoreRelevance_mono_of_le_wService (w : Window) (r : LogRecord)
    (q : ParsedQuery) (hserv : r.service ∈ q.services)
    (hle : scoreRelevance w q ≤ wService) :
    scoreRelevance w q ≤ scoreRelevance (addRecord w r) q := by
  have hc : wService ≤ recordContribution q r :=
    recordContribution_ge_wService q r hserv
  cases hrec : w.records with
  | nil =>
    have h0 : scoreRelevance w q = 0 := by simp [scoreRelevance, hrec]
    have h1 : scoreRelevance (addRecord w r) q = recordContribution q r := by
      simp [scoreRelevance, addRecord, hrec]
    rw [h0, h1]
    exact le_trans (by unfold wService; norm_num) hc
  | cons x xs =>
    set S := ((x :: xs).map (recordContribution q)).sum with hS
    set n : ℚ := ((x :: xs).length : ℚ) with hn
    have hnpos : 0 < n := by
      rw [hn]; exact_mod_cast Nat.succ_pos xs.length
    have hscore : scoreRelevance w q = S / n := by
      simp [scoreRelevance, hrec, hS, hn]
    have hrecs : (addRecord w r).records = r :: x :: xs := by
      simp [addRecord, hrec]
    have hsum : ((r :: x :: xs).map (recordContribution q)).sum
        = recordContribution q r + S := by simp [hS]
    have hlen : (((r :: x :: xs).length : ℕ) : ℚ) = n + 1 := by
      rw [hn]; push_cast [List.length_cons]; ring
    have hscore' : scoreRelevance (addRecord w r) q
        = (recordContribution q r + S) / (n + 1) := by
      rw [scoreRelevance, hrecs]
      simp only [List.isEmpty_cons, Bool.false_eq_true, if_false]
      rw [hsum, hlen]
    have hSle : S ≤ wService * n := by
      rw [hscore, div_le_iff₀ hnpos] at hle
      linarith
    rw [hscore, hscore']
    rw [div_le_div_iff₀ hnpos (by linarith)]
    have hcn : wService * n ≤ recordContribution q r * n :=
      mul_le_mul_of_nonneg_right hc (le_of_lt hnpos)
    nlinarith

/-- Witness for the amended C5 at a concrete input: a window scoring exactly
the service weight gains nothing but does not lose by adding a matching
record. -/
theorem scoreRelevance_mono_witness :
    scoreRelevance cWindowPlain cQuery
      ≤ scoreRelevance (addRecord cWindowPlain cRecMatch) cQuery :=
  scoreRelevance_mono_of_le_wService cWindowPlain cRecMatch cQuery
    (by decide)
    (by
      have hm : cRecPlain.service ∈ cQuery.services := by decide
      have hp0 : phraseHits cQuery cRecPlain = 0 := rfl
      have hk0 : keywordHits cQuery cRecPlain = 0 := rfl
      have hW : cWindowPlain.records = [cRecPlain] := rfl
      rw [scoreRelevance, hW]
      norm_num [recordContribution, hm, hp0, hk0, wService, wPhrase,
        wKeyword, keywordCap])

/-- Claim C6: the request layer is stateless — two runs on the identical
`(records, query, config)` triple return the identical pipeline output
(summaries in identical order and all counts), whatever conversation marker
either call carries. -/
theorem pipeline_deterministic (cfg : Config) (raws : List RawRecord)
    (query : String) (cid₁ cid₂ : Option String) :
    (analyzeRequest cfg raws query cid₁).output
      = (analyzeRequest cfg raws query cid₂).output := rfl

/-- Mapping preserves sublists, so sums of a nonnegative weight over a
sublist are bounded by the sum over the whole list. -/
theorem sum_map_le_of_sublist {α : Type} (f : α → Nat) {l₁ l₂ : List α}
    (h : l₁.Sublist l₂) : (l₁.map f).sum ≤ (l₂.map f).sum :=
  List.Sublist.sum_le_sum (h.map f) (fun a _ => Nat.zero_le a)

/-- Ranking never increases the total of a nonnegative per-window weight:
the output of `rank` is a take of a permutation of a filter of its input. -/
theorem rank_sum_le (sws : List ScoredWindow) (k : Nat)
    (f : ScoredWindow → Nat) :
    ((rank sws k).map f).sum ≤ (sws.map f).sum := by
  unfold rank
  refine le_trans (sum_map_le_of_sublist f (List.take_sublist _ _)) ?_
  rw [((List.mergeSort_perm (survivors sws) rankLE).map f).sum_eq]
  exact sum_map_le_of_sublist f (List.filter_sublist _)

/-- In every pipeline run the surviving record count is bounded by the total
record count. -/
theorem surviving_le_total (cfg : Config) (raws : List RawRecord)
    (query : String) :
    (runPipeline cfg raws query).survivingRecords
      ≤ (runPipeline cfg raws query).totalRecords := by
  show ((rank _ _).map fun sw => sw.window.records.length).sum
    ≤ (normalize raws).length
  refine le_trans (rank_sum_le _ _ _) ?_
  rw [List.map_map]
  exact le_of_eq (buildWindows_length_sum (normalize raws) cfg.bucketSeconds)

/-- The arithmetic core of the cost-reduction bound. -/
theorem costReduction_general (s t : Nat) (h : s ≤ t) :
    0 ≤ 1 - (s:ℚ)/t ∧ 1 - (s:ℚ)/t ≤ 1 ∧ (1 - (s:ℚ)/t = 1 ↔ s = 0) := by
  rcases Nat.eq_zero_or_pos t with ht | ht
  · have hs : s = 0 := Nat.le_zero.mp (ht ▸ h)
    subst hs; subst ht
    norm_num
  · have ht' : (0:ℚ) < t := by exact_mod_cast ht
    have htne : (t:ℚ) ≠ 0 := ne_of_gt ht'
    refine ⟨?_, ?_, ?_⟩
    · have hdiv : (s:ℚ)/t ≤ 1 := by
        rw [div_le_one ht']; exact_mod_cast h
      linarith
    · have hdiv : 0 ≤ (s:ℚ)/t := div_nonneg (by positivity) (le_of_lt ht')
      linarith
    · rw [sub_eq_self, div_eq_zero_iff]
      constructor
      · rintro (h0 | h0)
        · exact_mod_cast h0
        · exact absurd h0 htne
      · intro h0
        exact Or.inl (by exact_mod_cast h0)

/-- Claim C7: in every pipeline run, `costReductionPercentage = 1 -
survivingRecords/totalRecords` lies in `[0, 1]` and equals 1 exactly when
every window was filtered out (`survivingRecords = 0`). -/
theorem costReduction_bounds (cfg : Config) (raws : List RawRecord)
    (query : String) :
    0 ≤ (runPipeline cfg raws query).costReductionPercentage ∧
    (runPipeline cfg raws query).costReductionPercentage ≤ 1 ∧
    ((runPipeline cfg raws query).costReductionPercentage = 1 ↔
      (runPipeline cfg raws query).survivingRecords = 0) :=
  costReduction_general (runPipeline cfg raws query).survivingRecords
    (runPipeline cfg raws query).totalRecords
    (surviving_le_total cfg raws query)

end LogPipeline

namespace ChatUI

/-! ## Claim theorems: frontend -/

open LogPipeline (endsWithStr)

/-- Claim C8: the UI markdown renderer `formatContent` is exactly the
sequential application, in the listed order, of the ten pure replacement
rules (bold, inline code, h3, h2, h1 headers, paragraph breaks, bullet
items, list wrapping, leading paragraph tag, trailing paragraph tag) — a
fixed-precedence chain depending on nothing but the input string. -/
theorem formatContent_rule_chain (s : String) :
    formatContent s = String.mk (mdRules.foldl (fun acc rule => rule acc) s.data) :=
  rfl

/-- Claim C9: for a file offered by drop or through the file dialog,
`FileUpload` calls `onFileUpload` with the file exactly when its name ends in
`.ndjson` or `.json`; for any other name both handlers raise the alert,
invoke nothing, and leave no file selected. -/
theorem fileUpload_filters_extensions (name : String) :
    ((handleDrop none name).uploadCalled = some name ↔
      (endsWithStr name ".ndjson" = true ∨ endsWithStr name ".json" = true)) ∧
    ((handleFileSelect none name).uploadCalled = some name ↔
      (endsWithStr name ".ndjson" = true ∨ endsWithStr name ".json" = true)) ∧
    (¬(endsWithStr name ".ndjson" = true ∨ endsWithStr name ".json" = true) →
      handleDrop none name =
        { uploadCalled := none, selectedFile := none, alerted := true } ∧
      handleFileSelect none name =
        { uploadCalled := none, selectedFile := none, alerted := true }) := by
  by_cases h : endsWithStr name ".ndjson" = true ∨ endsWithStr name ".json" = true
  · refine ⟨?_, ?_, fun hn => absurd h hn⟩ <;>
      simp [handleDrop, handleFileSelect, h, Bool.or_eq_true]
  · have hb : (endsWithStr name ".ndjson" || endsWithStr name ".json") = false := by
      rcases Bool.eq_false_or_eq_true (endsWithStr name ".ndjson") with h1 | h1 <;>
        rcases Bool.eq_false_or_eq_true (endsWithStr name ".json") with h2 | h2 <;>
          simp [h1, h2] at h ⊢
    refine ⟨?_, ?_, fun _ => ?_⟩ <;>
      simp [handleDrop, handleFileSelect, hb, h]

/-- Witness for C9 at a concrete invalid name: a `.log` file is rejected by
both handlers. -/
theorem fileUpload_filters_extensions_witness :
    handleDrop none "app.log" =
      { uploadCalled := none, selectedFile := none, alerted := true } ∧
    handleFileSelect none "app.log" =
      { uploadCalled := none, selectedFile := none, alerted := true } :=
  (fileUpload_filters_extensions "app.log").2.2 (by decide)

/-- `assistantCount` distributes over append. -/
theorem assistantCount_append (l₁ l₂ : List ChatMessage) :
    assistantCount (l₁ ++ l₂) = assistantCount l₁ + assistantCount l₂ := by
  simp [assistantCount, List.filter_append]

/-- For every outcome of an issued request, the transcript after
`handleSendMessage` is: the loading-free old messages, the user message, and
one non-loading assistant message — and `isAnalyzing` is cleared. -/
theorem handleSend_shape (st : AppState) (t : String) (o : FetchOutcome)
    (f : String) (hup : st.uploadedFile = some f) :
    ∃ a : ChatMessage, a.mtype = .assistant ∧ a.isLoading = false ∧
      (handleSendMessage st t o).messages
        = (st.messages.filter fun m => !m.isLoading)
          ++ [{ mtype := .user, content := t }] ++ [a] ∧
      (handleSendMessage st t o).isAnalyzing = false := by
  cases o with
  | ok d =>
    refine ⟨{ mtype := .assistant, content := respContent d }, rfl, rfl, ?_, ?_⟩
    · simp [handleSendMessage, hup, List.filter_append]
    · simp [handleSendMessage, hup]
  | httpError status =>
    refine ⟨{ mtype := .assistant
              content := errorContent (httpErrorText status) }, rfl, rfl, ?_, ?_⟩
    · simp [handleSendMessage, hup, List.filter_append]
    · simp [handleSendMessage, hup]
  | networkError emsg =>
    refine ⟨{ mtype := .assistant, content := errorContent emsg }, rfl, rfl, ?_, ?_⟩
    · simp [handleSendMessage, hup, List.filter_append]
    · simp [handleSendMessage, hup]

/-- Claim C10: whenever `handleSendMessage` actually issues a request (a file
is uploaded), then for every outcome — parsed response, non-ok HTTP status,
or thrown error — the final state has no loading message left, `isAnalyzing`
is false, and exactly one assistant message was appended for the request. -/
theorem handleSendMessage_settles (st : AppState) (messageText : String)
    (outcome : FetchOutcome) (f : String) (hup : st.uploadedFile = some f)
    (hclean : (st.messages.all fun m => !m.isLoading) = true) :
    ((handleSendMessage st messageText outcome).messages.all
      fun m => !m.isLoading) = true ∧
    (handleSendMessage st messageText outcome).isAnalyzing = false ∧
    assistantCount (handleSendMessage st messageText outcome).messages
      = assistantCount st.messages + 1 := by
  have hclean' : ∀ m ∈ st.messages, m.isLoading = false := by
    intro m hm
    simpa using List.all_eq_true.mp hclean m hm
  obtain ⟨a, hmt, hld, hmsg, hana⟩ :=
    handleSend_shape st messageText outcome f hup
  have hfilter : st.messages.filter (fun m => !m.isLoading) = st.messages :=
    List.filter_eq_self.mpr fun m hm => by simp [hclean' m hm]
  rw [hfilter] at hmsg
  refine ⟨?_, hana, ?_⟩
  · rw [List.all_eq_true]
    intro m hm
    rw [hmsg] at hm
    simp only [List.mem_append, List.mem_singleton] at hm
    rcases hm with (hm | hm) | hm
    · simp [hclean' m hm]
    · subst hm; rfl
    · subst hm; simp [hld]
  · rw [hmsg, assistantCount_append, assistantCount_append]
    have h1 : assistantCount [{ mtype := .user, content := messageText }] = 0 :=
      rfl
    have h2 : assistantCount [a] = 1 := by simp [assistantCount, hmt]
    omega

/-- Witness for C10 at a concrete input: an HTTP 500 on a fresh state with an
uploaded file ends un-loading, not analyzing, with one assistant message. -/
theorem handleSendMessage_settles_witness :
    ((handleSendMessage chatState0 "why" (.httpError 500)).messages.all
      fun m => !m.isLoading) = true ∧
    (handleSendMessage chatState0 "why" (.httpError 500)).isAnalyzing = false ∧
    assistantCount (handleSendMessage chatState0 "why" (.httpError 500)).messages
      = assistantCount chatState0.messages + 1 :=
  handleSendMessage_settles chatState0 "why" (.httpError 500) "logs.json" rfl rfl

end ChatUI
